import Mathlib

/-!
Verification development for the ApplicationAccess TypeScript client
(`access-manager-client-base.ts`, `access-manager-client.ts` and the model
classes).  The client's data model and algorithms are embedded shallowly:
response bodies are JavaScript runtime values (`JsValue`), property access
follows JavaScript semantics (reading a property of `null` or `undefined`
throws, modelled with `Except`), and the HTTP transport is an explicit
outcome value.
-/

namespace ApplicationAccess

/-- JavaScript runtime values, as produced by JSON-decoding an HTTP response
body (plus `undefined`, which an absent body can be).  Numbers are modelled
as integers, which covers every value these algorithms inspect. -/
inductive JsValue where
  | undefined
  | null
  | bool (b : Bool)
  | num (n : Int)
  | str (s : String)
  | arr (elems : List JsValue)
  | obj (fields : List (String × JsValue))

/-- The JavaScript `typeof` operator.  Note `typeof null` is `"object"`. -/
def jsTypeof : JsValue → String
  | .undefined => "undefined"
  | .null => "object"
  | .bool _ => "boolean"
  | .num _ => "number"
  | .str _ => "string"
  | .arr _ => "object"
  | .obj _ => "object"

/-- Values on which property access throws a `TypeError` in JavaScript. -/
def isNullish : JsValue → Bool
  | .undefined => true
  | .null => true
  | _ => false

def jsIsUndefined : JsValue → Bool
  | .undefined => true
  | _ => false

/-- The value of a decimal digit, if the character is one. -/
def decDigit (c : Char) : Option Nat :=
  if '0' ≤ c && c ≤ '9' then some (c.toNat - 48) else none

/-- Parse a property key as an array/string index (a nonempty digit
string; canonicity of the numeric string is idealized, which no key this
client uses depends on). -/
def keyToIndex (k : String) : Option Nat :=
  match k.data with
  | [] => none
  | l => l.foldl (fun acc c =>
      match acc, decDigit c with
      | some a, some d => some (a * 10 + d)
      | _, _ => none) (some 0)

/-- The JavaScript `v.hasOwnProperty(k)` call.  On `null`/`undefined` it
throws; on primitives it operates on the boxed value (strings own their
indices and `length`, numbers and booleans own nothing); arrays own their
indices and `length`. -/
def hasOwnProperty : JsValue → String → Except Unit Bool
  | .undefined, _ => .error ()
  | .null, _ => .error ()
  | .obj fs, k => .ok (fs.any (fun p => p.1 == k))
  | .arr xs, k =>
    .ok (k == "length" || (match keyToIndex k with
      | some i => decide (i < xs.length)
      | none => false))
  | .str s, k =>
    .ok (k == "length" || (match keyToIndex k with
      | some i => decide (i < s.data.length)
      | none => false))
  | .bool _, _ => .ok false
  | .num _, _ => .ok false

/-- The JavaScript property read `v[k]` (equivalently `v.k`).  Reading from
`null`/`undefined` throws; a missing property reads as `undefined`;
array/string indexing and `length` are modelled (non-canonical numeric
strings are idealized as indices, which no input of this client uses). -/
def getProp : JsValue → String → Except Unit JsValue
  | .undefined, _ => .error ()
  | .null, _ => .error ()
  | .obj fs, k =>
    .ok (match fs.find? (fun p => p.1 == k) with
      | some p => p.2
      | none => .undefined)
  | .arr xs, k =>
    .ok (if k == "length" then .num xs.length
      else match keyToIndex k with
      | some i => xs.getD i .undefined
      | none => .undefined)
  | .str s, k =>
    .ok (if k == "length" then .num s.data.length
      else match keyToIndex k with
      | some i =>
        if i < s.data.length then .str (String.singleton (s.data.getD i ' ')) else .undefined
      | none => .undefined)
  | .bool _, _ => .ok .undefined
  | .num _, _ => .ok .undefined

/-- Total variant of `getProp` for values already known not to be nullish
(used to state specifications; never reached on nullish values). -/
def ownProp (v : JsValue) (k : String) : JsValue :=
  match getProp v k with
  | .ok r => r
  | .error _ => .undefined

/-- The JavaScript strict equality `v === s` against a string literal. -/
def jsStrictEqStr (v : JsValue) (s : String) : Bool :=
  match v with
  | .str t => t == s
  | _ => false

mutual

/-- Model of the JavaScript `String(v)` conversion (as performed by template
literal interpolation and by `v.toString()` on non-nullish values). -/
def jsToString : JsValue → String
  | .undefined => "undefined"
  | .null => "null"
  | .bool b => if b then "true" else "false"
  | .num n => toString n
  | .str s => s
  | .arr xs => jsArrayJoin xs
  | .obj _ => "[object Object]"

/-- `Array.prototype.toString`, i.e. `join(",")`: elements converted with
`String(v)`, except `null` and `undefined` which render as empty. -/
def jsArrayJoin : List JsValue → String
  | [] => ""
  | [x] =>
    (match x with
     | .undefined => ""
     | .null => ""
     | v => jsToString v)
  | x :: xs =>
    (match x with
     | .undefined => ""
     | .null => ""
     | v => jsToString v) ++ "," ++ jsArrayJoin xs

end

/-- Model of `name-value-pair.ts`: `NameValuePair`.  The constructor is
called with whatever `attributesArray[i].name` / `.value` evaluate to at
runtime, so the fields are raw JavaScript values. -/
structure NameValuePair where
  Name : JsValue
  Value : JsValue

/-- Model of `models/http-error-response.ts`: `HttpErrorResponse`.  `Code`,
`Message`, `Target` and `InnerError` are stored exactly as read from the
decoded body (the TypeScript annotations are erased at runtime), and
`InnerError` is stored as-is, never re-decoded. -/
structure HttpErrorResponse where
  Code : JsValue
  Message : JsValue
  Target : JsValue
  Attributes : List NameValuePair
  InnerError : JsValue

/-- Characters the JavaScript string-to-number conversion trims (the ASCII
white space forms; exotic Unicode space code points are not modelled). -/
def jsIsWhitespace (c : Char) : Bool :=
  c == ' ' || c == Char.ofNat 9 || c == Char.ofNat 10 || c == Char.ofNat 13 ||
    c == Char.ofNat 11 || c == Char.ofNat 12

/-- A nonempty all-digit character list read as a decimal number. -/
def digitsToNat : List Char → Option Nat
  | [] => none
  | l => l.foldl (fun acc c =>
      match acc, decDigit c with
      | some a, some d => some (a * 10 + d)
      | _, _ => none) (some 0)

/-- The JavaScript StringToNumber conversion (`none` is NaN): trimmed; the
empty string is 0; an optionally signed decimal integer literal is its
value.  Number forms outside the integer value model (fractions,
exponents, hex, Infinity) map to NaN. -/
def stringToNumber (s : String) : Option Int :=
  let t := (((s.data.dropWhile jsIsWhitespace).reverse.dropWhile jsIsWhitespace)).reverse
  match t with
  | [] => some 0
  | c :: rest =>
    if c == '-' then (digitsToNat rest).map (fun n => -(n : Int))
    else if c == '+' then (digitsToNat rest).map (fun n => (n : Int))
    else (digitsToNat t).map (fun n => (n : Int))

/-- The JavaScript ToNumber conversion on the values of this model (`none`
is NaN), as applied by the `i < attributesArray.length` loop guard:
numbers are themselves, `null` is 0, `undefined` is NaN, booleans are 0/1,
strings parse with `stringToNumber`, an array converts via its joined
string form, and a plain object gives `"[object Object]"`, i.e. NaN. -/
def jsToNumber : JsValue → Option Int
  | .num n => some n
  | .null => some 0
  | .undefined => none
  | .bool b => some (if b then 1 else 0)
  | .str s => stringToNumber s
  | .arr xs => stringToNumber (jsArrayJoin xs)
  | .obj _ => none

/-- The JavaScript indexed read `v[i]` for a non-negative integer `i`: the
property key is the canonical decimal string of `i`, so a plain object is
looked up at that key, arrays and strings at the index, and boxed
primitives read `undefined`; reading from `null`/`undefined` throws. -/
def getIndex : JsValue → Nat → Except Unit JsValue
  | .undefined, _ => .error ()
  | .null, _ => .error ()
  | .obj fs, i =>
    .ok (match fs.find? (fun p => p.1 == toString i) with
      | some p => p.2
      | none => .undefined)
  | .arr xs, i => .ok (xs.getD i .undefined)
  | .str s, i =>
    .ok (if i < s.data.length then .str (String.singleton (s.data.getD i ' '))
      else .undefined)
  | .bool _, _ => .ok .undefined
  | .num _, _ => .ok .undefined

/-- Total variant of `getIndex` for values already known not to be nullish
(used to state specifications; never reached on nullish values). -/
def ownIndex (v : JsValue) (i : Nat) : JsValue :=
  match getIndex v i with
  | .ok r => r
  | .error _ => .undefined

/-- The number of iterations of `for (i = 0; i < len; i++)` for a given
`length` value: `i < len` compares under ToNumber, NaN comparing false, so
the loop visits the indices below the converted value (0 when NaN or
non-positive). -/
def loopCount (len : JsValue) : Nat :=
  match jsToNumber len with
  | some n => n.toNat
  | none => 0

/-- The body of the attributes loop at the visited indices: each iteration
reads `attributesArray[i]`, then its `name` and `value` properties
(throwing a `TypeError` when the element is `null`/`undefined`, as on an
array-like object whose `length` exceeds its present elements), and
pushes a `NameValuePair`. -/
def buildAttrsIdx (a : JsValue) : List Nat → Except Unit (List NameValuePair)
  | [] => .ok []
  | i :: is => do
    let e ← getIndex a i
    let n ← getProp e "name"
    let v ← getProp e "value"
    let rest ← buildAttrsIdx a is
    .ok (⟨n, v⟩ :: rest)

/-- The `attributes` loop of `DeserializeResponseDataToHttpErrorResponse`:
`for (i = 0; i < attributesArray.length; i++) push(new NameValuePair(
attributesArray[i].name, attributesArray[i].value))`.  Reading `.length`
of `null`/`undefined` throws; an array or string has its numeric `length`;
a plain object supplies its own `length` property when present (an
array-like object, reachable from valid JSON, whose present elements are
collected and whose missing elements throw); values without a
numeric-convertible `length` never run the loop body. -/
def buildAttrs (a : JsValue) : Except Unit (List NameValuePair) := do
  let len ← getProp a "length"
  buildAttrsIdx a (List.range (loopCount len))

/-- Model of `AccessManagerClientBase.DeserializeResponseDataToHttpErrorResponse`.
Follows the source line by line: `undefined`/`null` bodies yield `null`
(modelled `none`); otherwise the body must own an `error` property whose
value has `typeof` `"object"` and owns both `code` and `message`; `target`,
`attributes` and `innerError` are optional.  The `Except` layer records the
JavaScript `TypeError`s this code can actually throw (for example when
`error` is the value `null`, whose `typeof` is `"object"` but on which
`hasOwnProperty` throws). -/
def DeserializeResponseDataToHttpErrorResponse : JsValue → Except Unit (Option HttpErrorResponse)
  | .undefined => .ok none
  | .null => .ok none
  | d => do
    let hasErr ← hasOwnProperty d "error"
    let errv ← getProp d "error"
    if hasErr && (jsTypeof errv == "object") then do
      let hasCode ← hasOwnProperty errv "code"
      let hasMsg ← hasOwnProperty errv "message"
      if hasCode && hasMsg then do
        let code ← getProp errv "code"
        let message ← getProp errv "message"
        let hasTarget ← hasOwnProperty errv "target"
        let target ← if hasTarget then getProp errv "target" else pure JsValue.null
        let hasAttrs ← hasOwnProperty errv "attributes"
        let attributes ← if hasAttrs then do
            let attrsVal ← getProp errv "attributes"
            buildAttrs attrsVal
          else pure []
        let hasInner ← hasOwnProperty errv "innerError"
        let innerError ← if hasInner then getProp errv "innerError" else pure JsValue.null
        .ok (some ⟨code, message, target, attributes, innerError⟩)
      else
        .ok none
    else
      .ok none

/-- Model of `AccessManagerClientBase.GetHttpErrorResponseAttributeValue`:
first attribute whose `Name` strictly equals the given name, else `""`. -/
def GetHttpErrorResponseAttributeValue (r : HttpErrorResponse) (attributeName : String) : JsValue :=
  match r.Attributes.find? (fun p => jsStrictEqStr p.Name attributeName) with
  | some p => p.Value
  | none => .str ""

/-- Uppercase hexadecimal digit, as produced by `encodeURIComponent` and by
`JSON.stringify` control-character escapes. -/
def hexDigitUpper (n : Nat) : Char :=
  if n < 10 then Char.ofNat (48 + n) else Char.ofNat (55 + n)

/-- One character of a JSON string literal, escaped as `JSON.stringify`
escapes it. -/
def jsonEscapeChar (c : Char) : List Char :=
  if c == Char.ofNat 34 then [Char.ofNat 92, Char.ofNat 34]
  else if c == Char.ofNat 92 then [Char.ofNat 92, Char.ofNat 92]
  else if c == Char.ofNat 10 then [Char.ofNat 92, 'n']
  else if c == Char.ofNat 13 then [Char.ofNat 92, 'r']
  else if c == Char.ofNat 9 then [Char.ofNat 92, 't']
  else if c == Char.ofNat 8 then [Char.ofNat 92, 'b']
  else if c == Char.ofNat 12 then [Char.ofNat 92, 'f']
  else if c.toNat < 32 then
    [Char.ofNat 92, 'u', '0', '0', hexDigitUpper (c.toNat / 16), hexDigitUpper (c.toNat % 16)]
  else [c]

/-- A JSON string literal: the characters escaped and wrapped in quotes. -/
def jsonQuote (s : String) : String :=
  String.singleton (Char.ofNat 34) ++ String.mk (List.flatten (s.data.map jsonEscapeChar))
    ++ String.singleton (Char.ofNat 34)

mutual

/-- Model of `JSON.stringify` on the values of this development (a top-level
`undefined` is never stringified by the client). -/
def jsonStringify : JsValue → String
  | .undefined => "undefined"
  | .null => "null"
  | .bool b => if b then "true" else "false"
  | .num n => toString n
  | .str s => jsonQuote s
  | .arr xs => "[" ++ jsonStringifyElems xs ++ "]"
  | .obj fs =>
    String.singleton (Char.ofNat 123) ++ jsonStringifyFields fs ++ String.singleton (Char.ofNat 125)

/-- Array elements of `JSON.stringify` output: `undefined` renders as
`null`, elements are comma-separated. -/
def jsonStringifyElems : List JsValue → String
  | [] => ""
  | [x] =>
    (match x with
     | .undefined => "null"
     | v => jsonStringify v)
  | x :: xs =>
    (match x with
     | .undefined => "null"
     | v => jsonStringify v) ++ "," ++ jsonStringifyElems xs

/-- Object fields of `JSON.stringify` output: fields holding `undefined`
are skipped, the rest render as quoted key, colon, value. -/
def jsonStringifyFields : List (String × JsValue) → String
  | [] => ""
  | (k, v) :: fs =>
    if jsIsUndefined v then jsonStringifyFields fs
    else jsonQuote k ++ ":" ++ jsonStringify v ++
      (if fs.any (fun p => !(jsIsUndefined p.2)) then "," else "") ++ jsonStringifyFields fs

end

/-- HTTP request methods, from `http-request-method.ts`.  That module is not
among the provided sources; modelled from the spec's request-core
description (GET, POST, DELETE) as a string enumeration. -/
inductive HttpRequestMethod where
  | Get
  | Post
  | Delete

/-- The string a method renders as inside error message templates. -/
def HttpRequestMethod.toMethodString : HttpRequestMethod → String
  | .Get => "GET"
  | .Post => "POST"
  | .Delete => "DELETE"

/-- The errors the client-base code can throw.  `elementNotFoundError` and
`notFoundError` model the classes in `errors/`; `genericError` models a
plain `Error` built from a message; `transportError` models the plain
`Error` thrown by `HandleAxiosError`, which alone carries a `cause` (the
underlying axios error, modelled by its message); `typeError` models the
JavaScript `TypeError` raised by property access on `null`/`undefined`. -/
inductive ThrownError where
  | elementNotFoundError (message : JsValue) (elementType : String) (elementValue : JsValue)
  | notFoundError (message : JsValue) (resourceId : JsValue)
  | genericError (message : String)
  | transportError (message : String) (cause : String)
  | typeError

/-- The error-throwing function registered for status 404 in
`InitializeStatusCodeToErrorThrowingFunctionMap`. -/
def status404ErrorThrowingFunction (r : HttpErrorResponse) : ThrownError :=
  if jsStrictEqStr r.Code "UserNotFoundException" then
    .elementNotFoundError r.Message "User" (GetHttpErrorResponseAttributeValue r "User")
  else if jsStrictEqStr r.Code "GroupNotFoundException" then
    .elementNotFoundError r.Message "Group" (GetHttpErrorResponseAttributeValue r "Group")
  else if jsStrictEqStr r.Code "EntityTypeNotFoundException" then
    .elementNotFoundError r.Message "EntityType" (GetHttpErrorResponseAttributeValue r "EntityType")
  else if jsStrictEqStr r.Code "EntityNotFoundException" then
    .elementNotFoundError r.Message "Entity" (GetHttpErrorResponseAttributeValue r "Entity")
  else
    .notFoundError r.Message (GetHttpErrorResponseAttributeValue r "ResourceId")

/-- The status-code map built by
`InitializeStatusCodeToErrorThrowingFunctionMap`: only 404 is registered. -/
def statusCodeToErrorThrowingFunctionMap (status : Nat) : Option (HttpErrorResponse → ThrownError) :=
  if status == 404 then some status404ErrorThrowingFunction else none

/-- The `baseExceptionMessage` template of `HandleNonSuccessResponseStatus`
(the `non-succces` typo is the source's). -/
def baseExceptionMessage (method : HttpRequestMethod) (requestUrl : String) (status : Nat) : String :=
  "Failed to call URL '" ++ requestUrl ++ "' with '" ++ method.toMethodString ++
    "' method.  Received non-succces HTTP response status " ++ toString status

/-- Model of `AccessManagerClientBase.HandleNonSuccessResponseStatus`: the
body is decoded; a decoded record dispatches through the status map (404)
or a generic error embedding code and message; an undecodable body raises a
generic error embedding a rendering of the body (JSON-stringified for
objects, `toString` otherwise, omitted when absent).  A decode that throws
a `TypeError` propagates it. -/
def HandleNonSuccessResponseStatus (method : HttpRequestMethod) (requestUrl : String)
    (status : Nat) (responseData : JsValue) : ThrownError :=
  match DeserializeResponseDataToHttpErrorResponse responseData with
  | .error _ => .typeError
  | .ok (some r) =>
    match statusCodeToErrorThrowingFunctionMap status with
    | some f => f r
    | none =>
      .genericError (baseExceptionMessage method requestUrl status ++
        ", error code '" ++ jsToString r.Code ++ "', and error message '" ++
        jsToString r.Message ++ "'.")
  | .ok none =>
    match responseData with
    | .undefined => .genericError (baseExceptionMessage method requestUrl status ++ ".")
    | .null => .genericError (baseExceptionMessage method requestUrl status ++ ".")
    | d =>
      if jsTypeof d == "object" then
        .genericError (baseExceptionMessage method requestUrl status ++
          ", and response body '" ++ jsonStringify d ++ "'.")
      else
        .genericError (baseExceptionMessage method requestUrl status ++
          ", and response body '" ++ jsToString d ++ "'.")

/-- Model of `AccessManagerClientBase.HandleAxiosError`: a plain `Error`
whose message embeds the URL, the method and the axios error's message, and
whose `cause` is the underlying axios error. -/
def HandleAxiosError (method : HttpRequestMethod) (requestUrl : String)
    (errorMessage : String) : ThrownError :=
  .transportError ("Failed to call URL '" ++ requestUrl ++ "' with '" ++
    method.toMethodString ++ "' method.  " ++ errorMessage) errorMessage

/-- Outcome of one transport call through the axios shim: either an HTTP
response was received (with its status and JSON-decoded body), or no
response was received at all (network-level failure, carrying the axios
error message). -/
inductive TransportOutcome where
  | status (s : Nat) (data : JsValue)
  | networkFailure (message : String)

/-- Axios's default `validateStatus`: the request promise resolves exactly
for 2xx statuses; any other received status rejects with an `AxiosError`
whose `status` field is set, and a network failure rejects with an
`AxiosError` whose `status` is `undefined`. -/
def axiosResolves (s : Nat) : Bool :=
  200 ≤ s && s < 300

/-- Result of one of the send primitives: a returned value, or a thrown
error. -/
inductive SendResult (α : Type) where
  | ok (value : α)
  | thrown (e : ThrownError)

/-- Model of `AccessManagerClientBase.SendGetRequestAsync`: a rejected call
with a status goes to `HandleNonSuccessResponseStatus`, one without a
status to `HandleAxiosError`; a resolved call returns `response.data` with
no status check. -/
def SendGetRequestAsync (requestUrl : String) : TransportOutcome → SendResult JsValue
  | .status s d =>
    if axiosResolves s then .ok d
    else .thrown (HandleNonSuccessResponseStatus .Get requestUrl s d)
  | .networkFailure m => .thrown (HandleAxiosError .Get requestUrl m)

/-- Model of `AccessManagerClientBase.SendGetRequestForContainsMethodAsync`:
a rejection with status 404 returns `false`; other rejections with a status
go to `HandleNonSuccessResponseStatus`, those without to
`HandleAxiosError`; a resolved call returns whether the status is 200. -/
def SendGetRequestForContainsMethodAsync (requestUrl : String) : TransportOutcome → SendResult Bool
  | .status s d =>
    if axiosResolves s then (if s == 200 then .ok true else .ok false)
    else if s == 404 then .ok false
    else .thrown (HandleNonSuccessResponseStatus .Get requestUrl s d)
  | .networkFailure m => .thrown (HandleAxiosError .Get requestUrl m)

/-- Model of `AccessManagerClientBase.SendPostRequestAsync`: rejections as
for GET; a resolved call additionally checks `response.status !== 201` and
routes such responses to `HandleNonSuccessResponseStatus`. -/
def SendPostRequestAsync (requestUrl : String) : TransportOutcome → SendResult Unit
  | .status s d =>
    if axiosResolves s then
      (if s != 201 then .thrown (HandleNonSuccessResponseStatus .Post requestUrl s d) else .ok ())
    else .thrown (HandleNonSuccessResponseStatus .Post requestUrl s d)
  | .networkFailure m => .thrown (HandleAxiosError .Post requestUrl m)

/-- Model of `AccessManagerClientBase.SendDeleteRequestAsync`: rejections as
for GET; a resolved call additionally checks `response.status !== 200`. -/
def SendDeleteRequestAsync (requestUrl : String) : TransportOutcome → SendResult Unit
  | .status s d =>
    if axiosResolves s then
      (if s != 200 then .thrown (HandleNonSuccessResponseStatus .Delete requestUrl s d) else .ok ())
    else .thrown (HandleNonSuccessResponseStatus .Delete requestUrl s d)
  | .networkFailure m => .thrown (HandleAxiosError .Delete requestUrl m)

/-- The characters `encodeURIComponent` leaves unescaped:
`A-Z a-z 0-9 - _ . ! ~ * ' ( )` (the apostrophe and the parentheses are
written by code point). -/
def isUnreservedInURIComponent (c : Char) : Bool :=
  ('A' ≤ c && c ≤ 'Z') || ('a' ≤ c && c ≤ 'z') || ('0' ≤ c && c ≤ '9') ||
    c == '-' || c == '_' || c == '.' || c == '!' || c == '~' || c == '*' ||
    c == Char.ofNat 39 || c == Char.ofNat 40 || c == Char.ofNat 41

/-- The UTF-8 encoding of one Unicode scalar value, as the byte values. -/
def utf8Bytes (c : Char) : List Nat :=
  let n := c.toNat
  if n < 128 then [n]
  else if n < 2048 then [192 + n / 64, 128 + n % 64]
  else if n < 65536 then [224 + n / 4096, 128 + (n / 64) % 64, 128 + n % 64]
  else [240 + n / 262144, 128 + (n / 4096) % 64, 128 + (n / 64) % 64, 128 + n % 64]

/-- One percent-escape, `%XX` with uppercase hexadecimal digits. -/
def percentEncodeByte (b : Nat) : List Char :=
  [Char.ofNat 37, hexDigitUpper (b / 16), hexDigitUpper (b % 16)]

/-- The encoding of one character under `encodeURIComponent`. -/
def encodeURIComponentChar (c : Char) : List Char :=
  if isUnreservedInURIComponent c then [c]
  else List.flatten ((utf8Bytes c).map percentEncodeByte)

/-- Model of the JavaScript `encodeURIComponent` builtin. -/
def encodeURIComponent (s : String) : String :=
  String.mk (List.flatten (s.data.map encodeURIComponentChar))

/-- The value of a hexadecimal digit (either case), if it is one. -/
def hexVal (c : Char) : Option Nat :=
  if '0' ≤ c && c ≤ '9' then some (c.toNat - 48)
  else if 'A' ≤ c && c ≤ 'F' then some (c.toNat - 55)
  else if 'a' ≤ c && c ≤ 'f' then some (c.toNat - 87)
  else none

/-- Parse one `%XX` escape, returning the byte value and the rest. -/
def percentByte : List Char → Option (Nat × List Char)
  | p :: h1 :: h2 :: rest =>
    if p == Char.ofNat 37 then do
      let a ← hexVal h1
      let b ← hexVal h2
      some (16 * a + b, rest)
    else none
  | _ => none

/-- Parse one `%XX` escape that must be a UTF-8 continuation byte, returning
its 6 payload bits and the rest. -/
def contByte (l : List Char) : Option (Nat × List Char) := do
  let (b, r) ← percentByte l
  if 128 ≤ b && b < 192 then some (b - 128, r) else none

/-- Parse one character of a percent-encoded string: either a literal
character, or the percent-escapes of one UTF-8 scalar. -/
def decodeScalar : List Char → Option (Char × List Char)
  | [] => none
  | c :: rest =>
    if c == Char.ofNat 37 then do
      let (b0, r0) ← percentByte (c :: rest)
      if b0 < 128 then some (Char.ofNat b0, r0)
      else if 192 ≤ b0 && b0 < 224 then do
        let (x1, r1) ← contByte r0
        some (Char.ofNat ((b0 - 192) * 64 + x1), r1)
      else if 224 ≤ b0 && b0 < 240 then do
        let (x1, r1) ← contByte r0
        let (x2, r2) ← contByte r1
        some (Char.ofNat ((b0 - 224) * 4096 + x1 * 64 + x2), r2)
      else if 240 ≤ b0 && b0 < 256 then do
        let (x1, r1) ← contByte r0
        let (x2, r2) ← contByte r1
        let (x3, r3) ← contByte r2
        some (Char.ofNat ((b0 - 240) * 262144 + x1 * 4096 + x2 * 64 + x3), r3)
      else none
    else some (c, rest)

theorem percentByte_rest_length {l : List Char} {b : Nat} {r : List Char}
    (h : percentByte l = some (b, r)) : r.length + 3 = l.length := by
  match l with
  | p :: h1 :: h2 :: rest =>
    unfold percentByte at h
    by_cases hp : p == Char.ofNat 37
    · simp [hp, Option.bind] at h
      cases hv1 : hexVal h1 with
      | none => simp [hv1] at h
      | some a =>
        cases hv2 : hexVal h2 with
        | none => simp [hv1, hv2] at h
        | some bb =>
          simp [hv1, hv2] at h
          simp [← h.2]
    · simp [hp] at h
  | [] => simp [percentByte] at h
  | [_] => simp [percentByte] at h
  | [_, _] => simp [percentByte] at h

theorem contByte_rest_length {l : List Char} {b : Nat} {r : List Char}
    (h : contByte l = some (b, r)) : r.length + 3 = l.length := by
  unfold contByte at h
  cases hpb : percentByte l with
  | none => simp [hpb] at h
  | some pr =>
    obtain ⟨bb, rr⟩ := pr
    simp [hpb, Option.bind] at h
    obtain ⟨-, -, hr⟩ := h
    rw [← hr]
    exact percentByte_rest_length hpb

theorem decodeScalar_rest_length {l : List Char} {c : Char} {r : List Char}
    (h : decodeScalar l = some (c, r)) : r.length < l.length := by
  match l with
  | [] => simp [decodeScalar] at h
  | a :: rest =>
    unfold decodeScalar at h
    by_cases ha : a == Char.ofNat 37
    · simp only [ha, if_true, Option.bind_eq_bind] at h
      cases hpb : percentByte (a :: rest) with
      | none => simp [hpb] at h
      | some pr =>
        obtain ⟨b0, r0⟩ := pr
        have hl0 := percentByte_rest_length hpb
        simp only [hpb, Option.some_bind] at h
        split at h
        · cases h; omega
        · split at h
          · cases hcb : contByte r0 with
            | none => simp [hcb] at h
            | some p1 =>
              obtain ⟨x1, r1⟩ := p1
              have hl1 := contByte_rest_length hcb
              simp [hcb] at h
              obtain ⟨-, hr⟩ := h
              subst hr
              omega
          · split at h
            · cases hcb : contByte r0 with
              | none => simp [hcb] at h
              | some p1 =>
                obtain ⟨x1, r1⟩ := p1
                have hl1 := contByte_rest_length hcb
                cases hcb2 : contByte r1 with
                | none => simp [hcb, hcb2] at h
                | some p2 =>
                  obtain ⟨x2, r2⟩ := p2
                  have hl2 := contByte_rest_length hcb2
                  simp [hcb, hcb2] at h
                  obtain ⟨-, hr⟩ := h
                  subst hr
                  omega
            · split at h
              · cases hcb : contByte r0 with
                | none => simp [hcb] at h
                | some p1 =>
                  obtain ⟨x1, r1⟩ := p1
                  have hl1 := contByte_rest_length hcb
                  cases hcb2 : contByte r1 with
                  | none => simp [hcb, hcb2] at h
                  | some p2 =>
                    obtain ⟨x2, r2⟩ := p2
                    have hl2 := contByte_rest_length hcb2
                    cases hcb3 : contByte r2 with
                    | none => simp [hcb, hcb2, hcb3] at h
                    | some p3 =>
                      obtain ⟨x3, r3⟩ := p3
                      have hl3 := contByte_rest_length hcb3
                      simp [hcb, hcb2, hcb3] at h
                      obtain ⟨-, hr⟩ := h
                      subst hr
                      omega
              · cases h
    · simp only [ha, if_false] at h
      cases h
      simp

/-- Decode a whole percent-encoded character list, scalar by scalar. -/
def decodeChars (l : List Char) : Option (List Char) :=
  match l with
  | [] => some []
  | a :: rest =>
    match hds : decodeScalar (a :: rest) with
    | none => none
    | some (c, r) =>
      match decodeChars r with
      | none => none
      | some tail => some (c :: tail)
termination_by l.length
decreasing_by
  exact decodeScalar_rest_length hds

/-- A percent-decoder inverting `encodeURIComponent` (the JavaScript
`decodeURIComponent` builtin, restricted to well-formed input; malformed
input yields `none` where the builtin throws `URIError`). -/
def decodeURIComponent (s : String) : Option String :=
  (decodeChars s.data).map String.mk

/-- Crude model of WHATWG URL parsing, used only for its success/failure
distinction: an absolute http(s) URL with a nonempty remainder parses.  On
the already-normalized absolute hrefs this client composes, `new URL(s).href`
is the identity, so a parsed URL is modelled by its string. -/
def parsesAsUrl (s : String) : Bool :=
  ("http://".data.isPrefixOf s.data && decide (7 < s.length)) ||
    ("https://".data.isPrefixOf s.data && decide (8 < s.length))

/-- Model of `AccessManagerClientBase.AppendPathToBaseUrl`: plain string
concatenation of the base href and the relative path (the source then
re-parses with `new URL`, the identity on these strings). -/
def AppendPathToBaseUrl (baseUrl path : String) : String :=
  baseUrl ++ path

/-- Model of `AccessManagerClientBase.InitializeBaseUrl`:
`new URL(baseUrl.href + "api/v1/")`, re-thrown as a construction-time error
when the concatenation does not parse. -/
def InitializeBaseUrl (baseUrlHref : String) : Except String String :=
  if parsesAsUrl (baseUrlHref ++ "api/v1/") then .ok (baseUrlHref ++ "api/v1/")
  else .error ("Failed to append API suffix to base URL '" ++ baseUrlHref ++ "'.")

/-- Model of `AxiosRequestConfig` down to what the client touches: the
optional `headers` dictionary. -/
structure AxiosRequestConfig where
  headers : Option (List (String × String))

/-- JavaScript dictionary assignment `headers[k] = v`: overwrite an existing
key or add the binding. -/
def setHeader (hs : List (String × String)) (k v : String) : List (String × String) :=
  if hs.any (fun p => p.1 == k) then hs.map (fun p => if p.1 == k then (k, v) else p)
  else hs ++ [(k, v)]

/-- The `requestConfig` part of
`AccessManagerClientBase.SetBaseConstructorParameters`: the client keeps the
caller's config object itself (`this.requestConfig = requestConfig`
aliases, so the write below mutates the caller's object), creates the
`headers` object when absent, and writes `headers["Accept"] =
"application/json"`. -/
def SetBaseConstructorParametersConfig (requestConfig : AxiosRequestConfig) : AxiosRequestConfig :=
  let hs := match requestConfig.headers with
    | none => []
    | some hs => hs
  { headers := some (setHeader hs "Accept" "application/json") }

/-- The immutable state of a constructed client that the claims concern:
the effective base URL and the request config. -/
structure ClientState where
  baseUrl : String
  requestConfig : AxiosRequestConfig

/-- Construction (`SetBaseConstructorParameters`): initialize the base URL
(fatal on parse failure) and install the `Accept` header. -/
def SetBaseConstructorParameters (baseUrlHref : String) (requestConfig : AxiosRequestConfig) :
    Except String ClientState := do
  let b ← InitializeBaseUrl baseUrlHref
  .ok ⟨b, SetBaseConstructorParametersConfig requestConfig⟩

/-- One call into the axios shim: `axiosShim.get(url.href, this.requestConfig)`
and its post/delete counterparts. -/
structure TransportCall where
  method : HttpRequestMethod
  url : String
  config : AxiosRequestConfig

def getTransportCall (client : ClientState) (requestUrl : String) : TransportCall :=
  ⟨.Get, requestUrl, client.requestConfig⟩

def postTransportCall (client : ClientState) (requestUrl : String) : TransportCall :=
  ⟨.Post, requestUrl, client.requestConfig⟩

def deleteTransportCall (client : ClientState) (requestUrl : String) : TransportCall :=
  ⟨.Delete, requestUrl, client.requestConfig⟩

/-- URL of `AccessManagerClient.AddUser` (and of `ContainsUser` and
`RemoveUser`, which share the path template). -/
def AddUserUrl {TUser : Type} (client : ClientState) (toStr : TUser → String) (user : TUser) : String :=
  AppendPathToBaseUrl client.baseUrl ("users/" ++ encodeURIComponent (toStr user))

/-- The transport calls `AddUser` performs: exactly one POST. -/
def AddUserTransportCalls {TUser : Type} (client : ClientState) (toStr : TUser → String)
    (user : TUser) : List TransportCall :=
  [postTransportCall client (AddUserUrl client toStr user)]

/-- Model of `AccessManagerClient.AddUser`: one POST to `users/{user}`. -/
def AddUser {TUser : Type} (client : ClientState) (toStr : TUser → String) (user : TUser)
    (outcome : TransportOutcome) : SendResult Unit :=
  SendPostRequestAsync (AddUserUrl client toStr user) outcome

/-- Model of `AccessManagerClient.ContainsUser`: existence-check GET to
`users/{user}`. -/
def ContainsUser {TUser : Type} (client : ClientState) (toStr : TUser → String) (user : TUser)
    (outcome : TransportOutcome) : SendResult Bool :=
  SendGetRequestForContainsMethodAsync (AddUserUrl client toStr user) outcome

def ContainsGroupUrl {TGroup : Type} (client : ClientState) (toStr : TGroup → String)
    (group : TGroup) : String :=
  AppendPathToBaseUrl client.baseUrl ("groups/" ++ encodeURIComponent (toStr group))

/-- Model of `AccessManagerClient.ContainsGroup`. -/
def ContainsGroup {TGroup : Type} (client : ClientState) (toStr : TGroup → String) (group : TGroup)
    (outcome : TransportOutcome) : SendResult Bool :=
  SendGetRequestForContainsMethodAsync (ContainsGroupUrl client toStr group) outcome

def ContainsEntityTypeUrl (client : ClientState) (entityType : String) : String :=
  AppendPathToBaseUrl client.baseUrl ("entityTypes/" ++ encodeURIComponent entityType)

/-- Model of `AccessManagerClient.ContainsEntityType`. -/
def ContainsEntityType (client : ClientState) (entityType : String)
    (outcome : TransportOutcome) : SendResult Bool :=
  SendGetRequestForContainsMethodAsync (ContainsEntityTypeUrl client entityType) outcome

def ContainsEntityUrl (client : ClientState) (entityType entity : String) : String :=
  AppendPathToBaseUrl client.baseUrl
    ("entityTypes/" ++ encodeURIComponent entityType ++ "/entities/" ++ encodeURIComponent entity)

/-- Model of `AccessManagerClient.ContainsEntity`. -/
def ContainsEntity (client : ClientState) (entityType entity : String)
    (outcome : TransportOutcome) : SendResult Bool :=
  SendGetRequestForContainsMethodAsync (ContainsEntityUrl client entityType entity) outcome

/-- Model of `models/application-component-and-access-level.ts`. -/
structure ApplicationComponentAndAccessLevel (TComponent TAccess : Type) where
  ApplicationComponent : TComponent
  AccessLevel : TAccess

/-- Model of `models/entity-type-and-entity.ts`.  The constructor receives
the raw decoded values. -/
structure EntityTypeAndEntity where
  EntityType : JsValue
  Entity : JsValue

/-- `Set.prototype.add` for a freshly constructed object (`results.add(new
...)`): JavaScript sets compare object members by reference (SameValueZero),
and a value built by `new` is never reference-equal to an existing member,
so the add always appends (JS sets preserve insertion order, modelled by a
list). -/
def jsSetAddFresh {α : Type} (l : List α) (a : α) : List α :=
  l ++ [a]

/-- SameValueZero equality on decoded JSON values: primitives compare by
value; objects and arrays compare by reference, and values produced by
decoding a JSON body are never aliased, so they are never equal. -/
def jsSameValueZero : JsValue → JsValue → Bool
  | .undefined, .undefined => true
  | .null, .null => true
  | .bool a, .bool b => a == b
  | .num a, .num b => a == b
  | .str a, .str b => a == b
  | _, _ => false

/-- `Set.prototype.add` for a decoded member value (`results.add(
rawResults[i].entity)`): appended unless a SameValueZero-equal member is
already present. -/
def jsSetAdd (l : List JsValue) (v : JsValue) : List JsValue :=
  if l.any (fun w => jsSameValueZero w v) then l else l ++ [v]

def GetApplicationComponentsAccessibleByUserUrl {TUser : Type} (client : ClientState)
    (toStr : TUser → String) (user : TUser) : String :=
  AppendPathToBaseUrl client.baseUrl
    ("userToApplicationComponentAndAccessLevelMappings/user/" ++
      encodeURIComponent (toStr user) ++ "?includeIndirectMappings=true")

/-- Result-set construction of
`AccessManagerClient.GetApplicationComponentsAccessibleByUser` (and of the
group variant, which differs only in its URL): each raw element's
`applicationComponent` and `accessLevel` are converted with the stringifiers
and a freshly constructed pair is added to the set. -/
def GetApplicationComponentsAccessibleByUserResults {TComponent TAccess : Type}
    (compFrom : JsValue → TComponent) (accFrom : JsValue → TAccess)
    (rawResults : List JsValue) :
    Except Unit (List (ApplicationComponentAndAccessLevel TComponent TAccess)) :=
  rawResults.foldlM (fun results e => do
    let comp ← getProp e "applicationComponent"
    let lvl ← getProp e "accessLevel"
    .ok (jsSetAddFresh results ⟨compFrom comp, accFrom lvl⟩)) []

def GetApplicationComponentsAccessibleByGroupUrl {TGroup : Type} (client : ClientState)
    (toStr : TGroup → String) (group : TGroup) : String :=
  AppendPathToBaseUrl client.baseUrl
    ("groupToApplicationComponentAndAccessLevelMappings/group/" ++
      encodeURIComponent (toStr group) ++ "?includeIndirectMappings=true")

def GetEntitiesAccessibleByUserUrl {TUser : Type} (client : ClientState)
    (toStr : TUser → String) (user : TUser) : String :=
  AppendPathToBaseUrl client.baseUrl
    ("userToEntityMappings/user/" ++ encodeURIComponent (toStr user) ++
      "?includeIndirectMappings=true")

/-- Result-set construction of
`AccessManagerClient.GetEntitiesAccessibleByUser` (and of the group
variant): a freshly constructed `EntityTypeAndEntity` is added per raw
element. -/
def GetEntitiesAccessibleByUserResults (rawResults : List JsValue) :
    Except Unit (List EntityTypeAndEntity) :=
  rawResults.foldlM (fun results e => do
    let t ← getProp e "entityType"
    let en ← getProp e "entity"
    .ok (jsSetAddFresh results ⟨t, en⟩)) []

def GetEntitiesAccessibleByGroupUrl {TGroup : Type} (client : ClientState)
    (toStr : TGroup → String) (group : TGroup) : String :=
  AppendPathToBaseUrl client.baseUrl
    ("groupToEntityMappings/group/" ++ encodeURIComponent (toStr group) ++
      "?includeIndirectMappings=true")

def GetEntitiesOfTypeAccessibleByUserUrl {TUser : Type} (client : ClientState)
    (toStr : TUser → String) (user : TUser) (entityType : String) : String :=
  AppendPathToBaseUrl client.baseUrl
    ("userToEntityMappings/user/" ++ encodeURIComponent (toStr user) ++
      "/entityType/" ++ encodeURIComponent entityType ++ "?includeIndirectMappings=true")

/-- Result-set construction of
`AccessManagerClient.GetEntitiesOfTypeAccessibleByUser` (and of the group
variant): the raw `entity` member values themselves are added to the set. -/
def GetEntitiesOfTypeAccessibleByUserResults (rawResults : List JsValue) :
    Except Unit (List JsValue) :=
  rawResults.foldlM (fun results e => do
    let en ← getProp e "entity"
    .ok (jsSetAdd results en)) []

def GetEntitiesOfTypeAccessibleByGroupUrl {TGroup : Type} (client : ClientState)
    (toStr : TGroup → String) (group : TGroup) (entityType : String) : String :=
  AppendPathToBaseUrl client.baseUrl
    ("groupToEntityMappings/group/" ++ encodeURIComponent (toStr group) ++
      "/entityType/" ++ encodeURIComponent entityType ++ "?includeIndirectMappings=true")

/-- The `error` own-property of a body, for stating the decode
characterization: only a plain object can own an `error` property. -/
def errorValueOf (d : JsValue) : Option JsValue :=
  match d with
  | .obj fs => (fs.find? (fun p => p.1 == "error")).map (fun p => p.2)
  | _ => none

/-- The indices the attributes loop visits for a value `a`: those below
the ToNumber conversion of `a`'s `length` (an array or string visits all
its indices; an array-like plain object the indices below its own
`length`; values without a numeric-convertible `length` visit none). -/
def specAttrIndices (a : JsValue) : List Nat :=
  List.range (loopCount (ownProp a "length"))

/-- Whether an `attributes` value makes the decoder throw a `TypeError`:
it is `null`/`undefined` (reading `.length` throws), or some visited
element reads as `null`/`undefined` (reading `.name` of it throws) — so an
array with a nullish element throws, as does an array-like object whose
`length` exceeds its present elements. -/
def specAttrsThrow (a : JsValue) : Bool :=
  isNullish a || (specAttrIndices a).any (fun i => isNullish (ownIndex a i))

/-- The attribute list the decoder produces from an `attributes` value
that does not make it throw: the visited elements' `name`/`value` pairs in
index order (an array contributes its elements' pairs, an array-like
object its present elements' pairs, a string one `undefined`/`undefined`
pair per character; values without a numeric-convertible `length`
contribute none). -/
def specAttrPairs (a : JsValue) : List NameValuePair :=
  (specAttrIndices a).map
    (fun i => ⟨ownProp (ownIndex a i) "name", ownProp (ownIndex a i) "value"⟩)

/-- The decode outcome as the (amended) claim describes it: `null` for an
absent body; a record exactly when the body owns an `error` property that
is a non-null object owning `code` and `message` and whose optional
`attributes` value lets the element loop complete (every visited index
reads a non-nullish element); a thrown `TypeError` when `error` is the
value `null` (its `typeof` is `"object"` but property access on it
throws), or when `attributes` is nullish, or when a visited element is
nullish; `null` in every remaining case.  On success the record carries
the `code` and `message` values, the `target` value (`null` when absent),
one `name`/`value` pair per visited index in order (empty when absent),
and the raw `innerError` value (`null` when absent). -/
def decodeSpecOutcome (d : JsValue) : Except Unit (Option HttpErrorResponse) :=
  match d with
  | .undefined => .ok none
  | .null => .ok none
  | d =>
    match errorValueOf d with
    | some JsValue.null => .error ()
    | some (JsValue.obj gs) =>
      if (gs.any (fun p => p.1 == "code")) && (gs.any (fun p => p.1 == "message")) then
        let e := JsValue.obj gs
        let hasAttrs := gs.any (fun p => p.1 == "attributes")
        if hasAttrs && specAttrsThrow (ownProp e "attributes") then .error ()
        else
          .ok (some
            { Code := ownProp e "code"
              Message := ownProp e "message"
              Target := if gs.any (fun p => p.1 == "target") then ownProp e "target" else .null
              Attributes := if hasAttrs then specAttrPairs (ownProp e "attributes") else []
              InnerError :=
                if gs.any (fun p => p.1 == "innerError") then ownProp e "innerError" else .null })
      else .ok none
    | _ => .ok none

/-! Helper lemmas shared by the claim theorems. -/

theorem handleNonSuccess_ne_transportError (method : HttpRequestMethod) (u : String) (s : Nat)
    (d : JsValue) (msg c : String) :
    HandleNonSuccessResponseStatus method u s d ≠ .transportError msg c := by
  unfold HandleNonSuccessResponseStatus
  cases hd : DeserializeResponseDataToHttpErrorResponse d with
  | error e => simp
  | ok o =>
    cases o with
    | none =>
      cases d <;> simp <;> split <;> simp
    | some r =>
      simp only [statusCodeToErrorThrowingFunctionMap]
      by_cases hs : (s == 404)
      · simp only [hs, if_true]
        unfold status404ErrorThrowingFunction
        split <;> try simp
        split <;> try simp
        split <;> try simp
        split <;> simp
      · simp [hs]

theorem jsStrictEqStr_eq_false {v : JsValue} {s : String} (h : v ≠ .str s) :
    jsStrictEqStr v s = false := by
  cases v <;> simp [jsStrictEqStr]
  intro heq
  exact h (by rw [heq])

/-! Claims C2, C3 and C8: request-core status handling. -/

/-- C2: for every `Contains*` operation (`ContainsUser`, `ContainsGroup`,
`ContainsEntityType`, `ContainsEntity`) and every transport outcome: a
response with status 200 yields `true`; a response with status 404 yields
`false` without raising; any other non-success (transport-rejected) status
raises an error rather than returning a boolean.  The four operations all
delegate to `SendGetRequestForContainsMethodAsync` at their URLs. -/
theorem C2_contains_semantics :
    (∀ url d, SendGetRequestForContainsMethodAsync url (.status 200 d) = .ok true) ∧
    (∀ url d, SendGetRequestForContainsMethodAsync url (.status 404 d) = .ok false) ∧
    (∀ url s d, axiosResolves s = false → s ≠ 404 →
      ∃ e, SendGetRequestForContainsMethodAsync url (.status s d) = .thrown e) ∧
    (∀ (TUser : Type) (client : ClientState) (toStr : TUser → String) (user : TUser) outcome,
      ContainsUser client toStr user outcome =
        SendGetRequestForContainsMethodAsync (AddUserUrl client toStr user) outcome) ∧
    (∀ (TGroup : Type) (client : ClientState) (toStr : TGroup → String) (group : TGroup) outcome,
      ContainsGroup client toStr group outcome =
        SendGetRequestForContainsMethodAsync (ContainsGroupUrl client toStr group) outcome) ∧
    (∀ (client : ClientState) (entityType : String) outcome,
      ContainsEntityType client entityType outcome =
        SendGetRequestForContainsMethodAsync (ContainsEntityTypeUrl client entityType) outcome) ∧
    (∀ (client : ClientState) (entityType entity : String) outcome,
      ContainsEntity client entityType entity outcome =
        SendGetRequestForContainsMethodAsync (ContainsEntityUrl client entityType entity) outcome) := by
  refine ⟨fun url d => rfl, fun url d => rfl, ?_, fun _ _ _ _ _ => rfl,
    fun _ _ _ _ _ => rfl, fun _ _ _ => rfl, fun _ _ _ _ => rfl⟩
  intro url s d hres h404
  refine ⟨HandleNonSuccessResponseStatus .Get url s d, ?_⟩
  simp [SendGetRequestForContainsMethodAsync, hres, h404]

/-- C2 witness: a 500 on a `Contains*` URL raises. -/
theorem C2_contains_semantics_witness :
    ∃ e, SendGetRequestForContainsMethodAsync "http://x/api/v1/users/alice"
      (.status 500 JsValue.null) = .thrown e :=
  C2_contains_semantics.2.2.1 "http://x/api/v1/users/alice" 500 JsValue.null
    (by decide) (by decide)

/-- C3 counterexample: the claim says a GET via `SendGetRequestAsync` treats
exactly status 200 as success and raises for every other status, but a GET
whose transport resolves with status 204 (a 2xx status, which axios's
default `validateStatus` resolves) returns the body without raising. -/
theorem C3_get_counterexample :
    SendGetRequestAsync "http://x/api/v1/users" (.status 204 (.str "body")) = .ok (.str "body") ∧
    ¬ ∃ e, SendGetRequestAsync "http://x/api/v1/users" (.status 204 (.str "body")) = .thrown e := by
  refine ⟨rfl, ?_⟩
  rintro ⟨e, he⟩
  rw [show SendGetRequestAsync "http://x/api/v1/users" (.status 204 (.str "body")) =
    .ok (.str "body") from rfl] at he
  cases he

/-- C3 (amended): a GET via `SendGetRequestAsync` treats every
transport-resolved status (2xx under axios defaults) as success, returning
the body with no status check of its own, and routes every rejected status
to error handling; POST treats exactly 201 as success and DELETE exactly
200, raising for every other status. -/
theorem C3_request_core_statuses (url : String) (s : Nat) (d : JsValue) :
    (axiosResolves s = true → SendGetRequestAsync url (.status s d) = .ok d) ∧
    (axiosResolves s = false → SendGetRequestAsync url (.status s d) =
      .thrown (HandleNonSuccessResponseStatus .Get url s d)) ∧
    (s = 201 → SendPostRequestAsync url (.status s d) = .ok ()) ∧
    (s ≠ 201 → SendPostRequestAsync url (.status s d) =
      .thrown (HandleNonSuccessResponseStatus .Post url s d)) ∧
    (s = 200 → SendDeleteRequestAsync url (.status s d) = .ok ()) ∧
    (s ≠ 200 → SendDeleteRequestAsync url (.status s d) =
      .thrown (HandleNonSuccessResponseStatus .Delete url s d)) := by
  refine ⟨?_, ?_, ?_, ?_, ?_, ?_⟩
  · intro h; simp [SendGetRequestAsync, h]
  · intro h; simp [SendGetRequestAsync, h]
  · intro h; subst h; rfl
  · intro h
    by_cases hres : axiosResolves s = true
    · simp [SendPostRequestAsync, hres, bne_iff_ne, h]
    · simp only [Bool.not_eq_true] at hres
      simp [SendPostRequestAsync, hres]
  · intro h; subst h; rfl
  · intro h
    by_cases hres : axiosResolves s = true
    · simp [SendDeleteRequestAsync, hres, bne_iff_ne, h]
    · simp only [Bool.not_eq_true] at hres
      simp [SendDeleteRequestAsync, hres]

/-- C3 witness: the amended GET clause at the resolved status 204 and the
POST clause at 201. -/
theorem C3_request_core_statuses_witness :
    SendGetRequestAsync "u" (.status 204 (.str "b")) = .ok (.str "b") ∧
    SendPostRequestAsync "u" (.status 201 JsValue.null) = .ok () :=
  ⟨(C3_request_core_statuses "u" 204 (.str "b")).1 (by decide),
    (C3_request_core_statuses "u" 201 JsValue.null).2.2.1 rfl⟩

/-- C8: a network-level failure (no HTTP status) raises the generic
transport error wrapping the underlying cause and embedding the URL and
method, for every primitive; a received non-success status is instead
passed to `HandleNonSuccessResponseStatus`; and the two outcomes are
distinguishable, since the status/body stage never produces the transport
error shape. -/
theorem C8_network_vs_application (url m : String) (s : Nat) (d : JsValue) :
    (SendGetRequestAsync url (.networkFailure m) = .thrown (HandleAxiosError .Get url m)) ∧
    (SendGetRequestForContainsMethodAsync url (.networkFailure m) =
      .thrown (HandleAxiosError .Get url m)) ∧
    (SendPostRequestAsync url (.networkFailure m) = .thrown (HandleAxiosError .Post url m)) ∧
    (SendDeleteRequestAsync url (.networkFailure m) = .thrown (HandleAxiosError .Delete url m)) ∧
    (∀ method : HttpRequestMethod, HandleAxiosError method url m =
      .transportError ("Failed to call URL '" ++ url ++ "' with '" ++ method.toMethodString ++
        "' method.  " ++ m) m) ∧
    (axiosResolves s = false → SendGetRequestAsync url (.status s d) =
      .thrown (HandleNonSuccessResponseStatus .Get url s d)) ∧
    (∀ (method : HttpRequestMethod) (u : String) (msg c : String),
      HandleNonSuccessResponseStatus method u s d ≠ .transportError msg c) := by
  refine ⟨rfl, rfl, rfl, rfl, fun method => rfl, ?_, ?_⟩
  · intro h; simp [SendGetRequestAsync, h]
  · intro method u msg c
    exact handleNonSuccess_ne_transportError method u s d msg c

/-- C8 witness: the status clause at the rejected status 500. -/
theorem C8_network_vs_application_witness :
    SendGetRequestAsync "u" (.status 500 JsValue.null) =
      .thrown (HandleNonSuccessResponseStatus .Get "u" 500 JsValue.null) :=
  (C8_network_vs_application "u" "m" 500 JsValue.null).2.2.2.2.2.1 (by decide)

/-- C6: for every non-success response whose body fails to decode to an
error record: when a body is present the raised error message embeds the
status (via `baseExceptionMessage`) and a rendering of the body,
JSON-stringified when the body is an object and its string conversion
otherwise; when the body is absent (`undefined` or `null`) the message
embeds the status and omits any body detail. -/
theorem C6_unstructured_failure (method : HttpRequestMethod) (url : String) (s : Nat)
    (d : JsValue) (hdec : DeserializeResponseDataToHttpErrorResponse d = .ok none) :
    (isNullish d = false →
      HandleNonSuccessResponseStatus method url s d = .genericError
        (baseExceptionMessage method url s ++ ", and response body '" ++
          (if jsTypeof d == "object" then jsonStringify d else jsToString d) ++ "'.")) ∧
    (isNullish d = true →
      HandleNonSuccessResponseStatus method url s d =
        .genericError (baseExceptionMessage method url s ++ ".")) ∧
    (∃ p, baseExceptionMessage method url s = p ++ toString s) := by
  refine ⟨?_, ?_, ⟨_, rfl⟩⟩
  · intro hnn
    cases d <;> simp_all [HandleNonSuccessResponseStatus, isNullish, jsTypeof]
  · intro hn
    cases d <;> simp_all [HandleNonSuccessResponseStatus, isNullish]

/-- C6 witness: a 500 with the non-object body `"oops"` and a 502 with an
absent body. -/
theorem C6_unstructured_failure_witness :
    HandleNonSuccessResponseStatus .Get "u" 500 (.str "oops") =
      .genericError (baseExceptionMessage .Get "u" 500 ++ ", and response body 'oops'.") ∧
    HandleNonSuccessResponseStatus .Get "u" 502 .undefined =
      .genericError (baseExceptionMessage .Get "u" 502 ++ ".") :=
  ⟨(C6_unstructured_failure .Get "u" 500 (.str "oops") (by rfl)).1 rfl,
    (C6_unstructured_failure .Get "u" 502 .undefined (by rfl)).2.1 rfl⟩

/-- C9 (implicit): construction writes `Accept = "application/json"` into
the caller-supplied request configuration (the client aliases the caller's
object, so the write mutates it), creating the headers object when absent;
every transport call of every operation passes exactly the constructed
configuration, which carries that header, and no primitive produces an
updated configuration. -/
theorem C9_accept_header (baseUrlHref : String) (cfg : AxiosRequestConfig) :
    (∃ hs, (SetBaseConstructorParametersConfig cfg).headers = some hs ∧
      ("Accept", "application/json") ∈ hs) ∧
    (cfg.headers = none →
      (SetBaseConstructorParametersConfig cfg).headers = some [("Accept", "application/json")]) ∧
    (∀ client : ClientState, SetBaseConstructorParameters baseUrlHref cfg = .ok client →
      client.requestConfig = SetBaseConstructorParametersConfig cfg ∧
      (∀ url, (getTransportCall client url).config = SetBaseConstructorParametersConfig cfg ∧
        (postTransportCall client url).config = SetBaseConstructorParametersConfig cfg ∧
        (deleteTransportCall client url).config = SetBaseConstructorParametersConfig cfg)) := by
  refine ⟨?_, ?_, ?_⟩
  · refine ⟨_, rfl, ?_⟩
    unfold setHeader
    cases hh : cfg.headers with
    | none => simp
    | some hs =>
      simp only
      by_cases hany : hs.any (fun p => p.1 == "Accept")
      · rw [if_pos hany]
        rw [List.any_eq_true] at hany
        obtain ⟨p, hp, hpk⟩ := hany
        refine List.mem_map.2 ⟨p, hp, ?_⟩
        simp [hpk]
      · rw [if_neg hany]
        simp
  · intro hh
    simp [SetBaseConstructorParametersConfig, hh, setHeader]
  · intro client hc
    unfold SetBaseConstructorParameters at hc
    cases hi : InitializeBaseUrl baseUrlHref with
    | error e => rw [hi] at hc; cases hc
    | ok b =>
      rw [hi] at hc
      cases hc
      exact ⟨rfl, fun url => ⟨rfl, rfl, rfl⟩⟩

/-- C9 witness: a caller configuration with no headers object gets one
holding exactly the `Accept` header. -/
theorem C9_accept_header_witness :
    (SetBaseConstructorParametersConfig ⟨none⟩).headers = some [("Accept", "application/json")] :=
  (C9_accept_header "http://x/" ⟨none⟩).2.1 rfl

/-- C10 (implicit): URL composition is raw string concatenation of href
strings: the constructor sets the effective base to `href ++ "api/v1/"` and
each operation appends its relative path to that string, so a base href not
ending in a slash has the suffix fused onto its last path segment (the
concrete base `http://host/x` yields `http://host/xapi/v1/`); the only
check is that the concatenation parses as a URL, failing at construction
time. -/
theorem C10_url_composition (b p : String) :
    (parsesAsUrl (b ++ "api/v1/") = true → InitializeBaseUrl b = .ok (b ++ "api/v1/")) ∧
    (AppendPathToBaseUrl (b ++ "api/v1/") p = b ++ "api/v1/" ++ p) ∧
    (parsesAsUrl (b ++ "api/v1/") = false →
      InitializeBaseUrl b = .error ("Failed to append API suffix to base URL '" ++ b ++ "'.")) ∧
    (InitializeBaseUrl "http://host/x" = .ok "http://host/xapi/v1/") := by
  refine ⟨?_, rfl, ?_, ?_⟩
  · intro h; simp [InitializeBaseUrl, h]
  · intro h; simp [InitializeBaseUrl, h]
  · have hp : parsesAsUrl ("http://host/x" ++ "api/v1/") = true := by decide
    simp only [InitializeBaseUrl, hp, if_true]
    exact congrArg Except.ok (by decide)

/-- C10 witness: base hrefs with and without a trailing slash. -/
theorem C10_url_composition_witness :
    InitializeBaseUrl "http://x/" = .ok "http://x/api/v1/" ∧
    InitializeBaseUrl "http://host/x" = .ok "http://host/xapi/v1/" :=
  ⟨(C10_url_composition "http://x/" "").1 (by decide),
    (C10_url_composition "http://host/x" "").2.2.2⟩

/-- C1: for every 404 response whose body decodes to an error record, the
mapping raises `ElementNotFoundError` with the matching tag and the value
of the fixed-name attribute for the four known codes, and `NotFoundError`
with the `ResourceId` attribute value otherwise; a missing attribute gives
the empty string rather than failing (last two conjuncts characterize the
attribute lookup). -/
theorem C1_404_code_dispatch (method : HttpRequestMethod) (url : String) (body : JsValue)
    (r : HttpErrorResponse)
    (hdec : DeserializeResponseDataToHttpErrorResponse body = .ok (some r)) :
    (r.Code = .str "UserNotFoundException" →
      HandleNonSuccessResponseStatus method url 404 body =
        .elementNotFoundError r.Message "User" (GetHttpErrorResponseAttributeValue r "User")) ∧
    (r.Code = .str "GroupNotFoundException" →
      HandleNonSuccessResponseStatus method url 404 body =
        .elementNotFoundError r.Message "Group" (GetHttpErrorResponseAttributeValue r "Group")) ∧
    (r.Code = .str "EntityTypeNotFoundException" →
      HandleNonSuccessResponseStatus method url 404 body =
        .elementNotFoundError r.Message "EntityType"
          (GetHttpErrorResponseAttributeValue r "EntityType")) ∧
    (r.Code = .str "EntityNotFoundException" →
      HandleNonSuccessResponseStatus method url 404 body =
        .elementNotFoundError r.Message "Entity"
          (GetHttpErrorResponseAttributeValue r "Entity")) ∧
    ((r.Code ≠ .str "UserNotFoundException" ∧ r.Code ≠ .str "GroupNotFoundException" ∧
      r.Code ≠ .str "EntityTypeNotFoundException" ∧ r.Code ≠ .str "EntityNotFoundException") →
      HandleNonSuccessResponseStatus method url 404 body =
        .notFoundError r.Message (GetHttpErrorResponseAttributeValue r "ResourceId")) ∧
    (∀ name : String, (∀ p ∈ r.Attributes, p.Name ≠ .str name) →
      GetHttpErrorResponseAttributeValue r name = .str "") ∧
    (∀ (name : String) (p : NameValuePair),
      r.Attributes.find? (fun q => jsStrictEqStr q.Name name) = some p →
      GetHttpErrorResponseAttributeValue r name = p.Value) := by
  have hmain : HandleNonSuccessResponseStatus method url 404 body =
      status404ErrorThrowingFunction r := by
    unfold HandleNonSuccessResponseStatus
    rw [hdec]
    rfl
  refine ⟨?_, ?_, ?_, ?_, ?_, ?_, ?_⟩
  · intro hc
    rw [hmain]
    unfold status404ErrorThrowingFunction
    simp [hc, jsStrictEqStr]
  · intro hc
    rw [hmain]
    unfold status404ErrorThrowingFunction
    simp [hc, jsStrictEqStr]
  · intro hc
    rw [hmain]
    unfold status404ErrorThrowingFunction
    simp [hc, jsStrictEqStr]
  · intro hc
    rw [hmain]
    unfold status404ErrorThrowingFunction
    simp [hc, jsStrictEqStr]
  · rintro ⟨h1, h2, h3, h4⟩
    rw [hmain]
    unfold status404ErrorThrowingFunction
    rw [jsStrictEqStr_eq_false h1, jsStrictEqStr_eq_false h2, jsStrictEqStr_eq_false h3,
      jsStrictEqStr_eq_false h4]
    simp
  · intro name h
    have hfind : r.Attributes.find? (fun q => jsStrictEqStr q.Name name) = none := by
      rw [List.find?_eq_none]
      intro x hx
      rw [jsStrictEqStr_eq_false (h x hx)]
      simp
    simp [GetHttpErrorResponseAttributeValue, hfind]
  · intro name p hp
    simp [GetHttpErrorResponseAttributeValue, hp]

/-- C1 witness: a decodable 404 body with code `UserNotFoundException` and
a `User` attribute raises `ElementNotFoundError` with tag `User` and value
`bob`; one with an unknown code and no attributes raises `NotFoundError`
with the empty-string resource id. -/
theorem C1_404_code_dispatch_witness :
    HandleNonSuccessResponseStatus .Get "u" 404
        (.obj [("error", .obj [("code", .str "UserNotFoundException"), ("message", .str "msg"),
          ("attributes", .arr [.obj [("name", .str "User"), ("value", .str "bob")]])])]) =
      .elementNotFoundError (.str "msg") "User" (.str "bob") ∧
    HandleNonSuccessResponseStatus .Get "u" 404
        (.obj [("error", .obj [("code", .str "OtherException"), ("message", .str "msg")])]) =
      .notFoundError (.str "msg") (.str "") :=
  ⟨(C1_404_code_dispatch .Get "u"
      (.obj [("error", .obj [("code", .str "UserNotFoundException"), ("message", .str "msg"),
        ("attributes", .arr [.obj [("name", .str "User"), ("value", .str "bob")]])])])
      ⟨.str "UserNotFoundException", .str "msg", .null, [⟨.str "User", .str "bob"⟩], .null⟩
      (by rfl)).1 rfl,
    (C1_404_code_dispatch .Get "u"
      (.obj [("error", .obj [("code", .str "OtherException"), ("message", .str "msg")])])
      ⟨.str "OtherException", .str "msg", .null, [], .null⟩
      (by rfl)).2.2.2.2.1 (by refine ⟨?_, ?_, ?_, ?_⟩ <;> simp)⟩

theorem except_bind_ok {ε α β : Type} (a : α) (f : α → Except ε β) :
    (Except.ok a : Except ε α) >>= f = f a := rfl

theorem except_bind_error {ε α β : Type} (u : ε) (f : α → Except ε β) :
    (Except.error u : Except ε α) >>= f = Except.error u := rfl

theorem foldlM_two_props_length {α : Type} (k1 k2 : String) (g : JsValue → JsValue → α) :
    ∀ (raw : List JsValue) (acc l : List α),
      raw.foldlM (fun results e => do
        let a ← getProp e k1
        let b ← getProp e k2
        Except.ok (jsSetAddFresh results (g a b))) acc = .ok l →
      l.length = acc.length + raw.length := by
  intro raw
  induction raw with
  | nil =>
    intro acc l h
    have h2 : Except.ok acc = Except.ok l := h
    cases h2
    simp
  | cons e raw ih =>
    intro acc l h
    rw [List.foldlM_cons] at h
    cases hgt : getProp e k1 with
    | error u =>
      rw [hgt] at h
      simp only [except_bind_error] at h
      cases h
    | ok a =>
      rw [hgt] at h
      simp only [except_bind_ok] at h
      cases hgb : getProp e k2 with
      | error u =>
        rw [hgb] at h
        simp only [except_bind_error] at h
        cases h
      | ok b =>
        rw [hgb] at h
        simp only [except_bind_ok] at h
        have := ih (jsSetAddFresh acc (g a b)) l h
        simp only [jsSetAddFresh, List.length_append, List.length_cons, List.length_nil]
          at this ⊢
        omega

theorem foldlM_setAdd_nodup :
    ∀ (raw : List JsValue) (acc : List JsValue),
      (∀ e ∈ raw, ∃ s, getProp e "entity" = .ok (.str s)) → acc.Nodup →
      ∃ l, raw.foldlM (fun results e => do
        let en ← getProp e "entity"
        Except.ok (jsSetAdd results en)) acc = .ok l ∧ l.Nodup := by
  intro raw
  induction raw with
  | nil =>
    intro acc _ hnd
    exact ⟨acc, rfl, hnd⟩
  | cons e raw ih =>
    intro acc hstr hnd
    obtain ⟨s, hs⟩ := hstr e (List.mem_cons_self e raw)
    have hstr' : ∀ x ∈ raw, ∃ t, getProp x "entity" = .ok (.str t) :=
      fun x hx => hstr x (List.mem_cons_of_mem e hx)
    have hnd' : (jsSetAdd acc (.str s)).Nodup := by
      unfold jsSetAdd
      by_cases hany : acc.any (fun w => jsSameValueZero w (.str s)) = true
      · rw [if_pos hany]; exact hnd
      · rw [if_neg hany]
        have hnotmem : JsValue.str s ∉ acc := by
          intro hmem
          exact hany (List.any_eq_true.2 ⟨_, hmem, by simp [jsSameValueZero]⟩)
        rw [List.nodup_append]
        exact ⟨hnd, List.nodup_singleton _, by
          intro a ha hmem
          rw [List.mem_singleton] at hmem
          subst hmem
          exact hnotmem ha⟩
    obtain ⟨l, hl, hlnd⟩ := ih (jsSetAdd acc (.str s)) hstr' hnd'
    refine ⟨l, ?_, hlnd⟩
    rw [List.foldlM_cons, hs]
    simp only [except_bind_ok]
    exact hl

/-- C4 counterexample: the claim says the result set of the accessible-by
family contains no duplicates under structural equality of the compound
values, but `GetEntitiesAccessibleByUser` adds freshly constructed
`EntityTypeAndEntity` objects to a JavaScript `Set` (reference equality),
so two structurally equal raw elements produce a set with two structurally
equal members. -/
theorem C4_duplicates_counterexample :
    GetEntitiesAccessibleByUserResults
        [.obj [("entityType", .str "t"), ("entity", .str "e")],
         .obj [("entityType", .str "t"), ("entity", .str "e")]] =
      .ok [⟨.str "t", .str "e"⟩, ⟨.str "t", .str "e"⟩] ∧
    ¬ ([(⟨.str "t", .str "e"⟩ : EntityTypeAndEntity), ⟨.str "t", .str "e"⟩]).Nodup := by
  constructor
  · rfl
  · simp [List.nodup_cons]

/-- C4 (amended): every operation of the accessible-by family hard-codes
`includeIndirectMappings=true` in its URL regardless of caller input; the
string-element sets (`GetEntitiesOfTypeAccessibleByUser`/`Group`) are
duplicate-free, but the compound-element sets hold one freshly constructed
object per raw element (their length equals the raw array's length), so
structurally equal duplicates are retained. -/
theorem C4_accessible_by_family :
    (∀ (TUser : Type) (client : ClientState) (toStr : TUser → String) (user : TUser),
      ∃ p, GetApplicationComponentsAccessibleByUserUrl client toStr user =
        p ++ "?includeIndirectMappings=true") ∧
    (∀ (TGroup : Type) (client : ClientState) (toStr : TGroup → String) (group : TGroup),
      ∃ p, GetApplicationComponentsAccessibleByGroupUrl client toStr group =
        p ++ "?includeIndirectMappings=true") ∧
    (∀ (TUser : Type) (client : ClientState) (toStr : TUser → String) (user : TUser),
      ∃ p, GetEntitiesAccessibleByUserUrl client toStr user =
        p ++ "?includeIndirectMappings=true") ∧
    (∀ (TGroup : Type) (client : ClientState) (toStr : TGroup → String) (group : TGroup),
      ∃ p, GetEntitiesAccessibleByGroupUrl client toStr group =
        p ++ "?includeIndirectMappings=true") ∧
    (∀ (TUser : Type) (client : ClientState) (toStr : TUser → String) (user : TUser)
      (entityType : String),
      ∃ p, GetEntitiesOfTypeAccessibleByUserUrl client toStr user entityType =
        p ++ "?includeIndirectMappings=true") ∧
    (∀ (TGroup : Type) (client : ClientState) (toStr : TGroup → String) (group : TGroup)
      (entityType : String),
      ∃ p, GetEntitiesOfTypeAccessibleByGroupUrl client toStr group entityType =
        p ++ "?includeIndirectMappings=true") ∧
    (∀ (raw : List JsValue) (l : List EntityTypeAndEntity),
      GetEntitiesAccessibleByUserResults raw = .ok l → l.length = raw.length) ∧
    (∀ (TComponent TAccess : Type) (compFrom : JsValue → TComponent)
      (accFrom : JsValue → TAccess) (raw : List JsValue)
      (l : List (ApplicationComponentAndAccessLevel TComponent TAccess)),
      GetApplicationComponentsAccessibleByUserResults compFrom accFrom raw = .ok l →
      l.length = raw.length) ∧
    (∀ raw : List JsValue, (∀ e ∈ raw, ∃ s, getProp e "entity" = .ok (.str s)) →
      ∃ l, GetEntitiesOfTypeAccessibleByUserResults raw = .ok l ∧ l.Nodup) := by
  refine ⟨?_, ?_, ?_, ?_, ?_, ?_, ?_, ?_, ?_⟩
  · intro TUser client toStr user
    exact ⟨client.baseUrl ++ ("userToApplicationComponentAndAccessLevelMappings/user/" ++
        encodeURIComponent (toStr user)),
      by simp [GetApplicationComponentsAccessibleByUserUrl, AppendPathToBaseUrl,
        String.append_assoc]⟩
  · intro TGroup client toStr group
    exact ⟨client.baseUrl ++ ("groupToApplicationComponentAndAccessLevelMappings/group/" ++
        encodeURIComponent (toStr group)),
      by simp [GetApplicationComponentsAccessibleByGroupUrl, AppendPathToBaseUrl,
        String.append_assoc]⟩
  · intro TUser client toStr user
    exact ⟨client.baseUrl ++ ("userToEntityMappings/user/" ++ encodeURIComponent (toStr user)),
      by simp [GetEntitiesAccessibleByUserUrl, AppendPathToBaseUrl, String.append_assoc]⟩
  · intro TGroup client toStr group
    exact ⟨client.baseUrl ++ ("groupToEntityMappings/group/" ++ encodeURIComponent (toStr group)),
      by simp [GetEntitiesAccessibleByGroupUrl, AppendPathToBaseUrl, String.append_assoc]⟩
  · intro TUser client toStr user entityType
    exact ⟨client.baseUrl ++ ("userToEntityMappings/user/" ++ encodeURIComponent (toStr user) ++
        "/entityType/" ++ encodeURIComponent entityType),
      by simp [GetEntitiesOfTypeAccessibleByUserUrl, AppendPathToBaseUrl, String.append_assoc]⟩
  · intro TGroup client toStr group entityType
    exact ⟨client.baseUrl ++ ("groupToEntityMappings/group/" ++ encodeURIComponent (toStr group) ++
        "/entityType/" ++ encodeURIComponent entityType),
      by simp [GetEntitiesOfTypeAccessibleByGroupUrl, AppendPathToBaseUrl, String.append_assoc]⟩
  · intro raw l h
    have := foldlM_two_props_length "entityType" "entity"
      (fun a b => (⟨a, b⟩ : EntityTypeAndEntity)) raw [] l h
    simpa using this
  · intro TComponent TAccess compFrom accFrom raw l h
    have := foldlM_two_props_length "applicationComponent" "accessLevel"
      (fun a b => (⟨compFrom a, accFrom b⟩ : ApplicationComponentAndAccessLevel TComponent TAccess))
      raw [] l h
    simpa using this
  · intro raw hstr
    exact foldlM_setAdd_nodup raw [] hstr (List.nodup_nil)

/-- C4 witness: structurally duplicate raw elements keep the
compound-result length at 2, while the string-element set is
duplicate-free. -/
theorem C4_accessible_by_family_witness :
    ([(⟨.str "t", .str "e"⟩ : EntityTypeAndEntity), ⟨.str "t", .str "e"⟩]).length =
      ([JsValue.obj [("entityType", .str "t"), ("entity", .str "e")],
        JsValue.obj [("entityType", .str "t"), ("entity", .str "e")]]).length ∧
    ∃ l, GetEntitiesOfTypeAccessibleByUserResults
        [.obj [("entity", .str "e")], .obj [("entity", .str "e")]] = .ok l ∧ l.Nodup :=
  ⟨C4_accessible_by_family.2.2.2.2.2.2.1
      [.obj [("entityType", .str "t"), ("entity", .str "e")],
        .obj [("entityType", .str "t"), ("entity", .str "e")]]
      [⟨.str "t", .str "e"⟩, ⟨.str "t", .str "e"⟩] (by rfl),
    C4_accessible_by_family.2.2.2.2.2.2.2.2
      [.obj [("entity", .str "e")], .obj [("entity", .str "e")]]
      (by intro e he; rw [List.mem_cons, List.mem_singleton] at he
          rcases he with h | h <;> exact ⟨"e", by rw [h]; rfl⟩)⟩

theorem char_toNat_lt (c : Char) : c.toNat < 1114112 := by
  rcases c.valid with h | ⟨h1, h2⟩
  · exact Nat.lt_trans h (by norm_num)
  · exact h2

theorem hexVal_hexDigitUpper : ∀ n < 16, hexVal (hexDigitUpper n) = some n := by decide

theorem percentByte_encode (b : Nat) (hb : b < 256) (t : List Char) :
    percentByte (percentEncodeByte b ++ t) = some (b, t) := by
  have h1 : hexVal (hexDigitUpper (b / 16)) = some (b / 16) :=
    hexVal_hexDigitUpper _ (by omega)
  have h2 : hexVal (hexDigitUpper (b % 16)) = some (b % 16) :=
    hexVal_hexDigitUpper _ (by omega)
  simp [percentEncodeByte, percentByte, h1, h2]
  omega

theorem option_bind_some {α β : Type} (a : α) (f : α → Option β) : (some a >>= f) = f a := rfl

theorem contByte_encode (x : Nat) (hx : x < 64) (t : List Char) :
    contByte (percentEncodeByte (128 + x) ++ t) = some (x, t) := by
  unfold contByte
  rw [percentByte_encode (128 + x) (by omega) t]
  simp
  omega

theorem pct_cons (b : Nat) (t : List Char) :
    percentEncodeByte b ++ t =
      Char.ofNat 37 :: hexDigitUpper (b / 16) :: hexDigitUpper (b % 16) :: t := rfl

theorem decodeScalar_encodeChar (c : Char) (t : List Char) :
    decodeScalar (encodeURIComponentChar c ++ t) = some (c, t) := by
  by_cases hu : isUnreservedInURIComponent c = true
  · have hc37 : (c == Char.ofNat 37) = false := by
      refine beq_eq_false_iff_ne.2 ?_
      intro hceq
      rw [hceq] at hu
      exact absurd hu (by decide)
    rw [encodeURIComponentChar, if_pos hu]
    simp [decodeScalar, hc37]
  · rw [encodeURIComponentChar, if_neg hu]
    have hval := char_toNat_lt c
    rw [utf8Bytes]
    by_cases h1 : c.toNat < 128
    · rw [if_pos h1]
      have e0 : List.flatten ([c.toNat].map percentEncodeByte) ++ t =
          percentEncodeByte c.toNat ++ t := by simp
      rw [e0, pct_cons, decodeScalar]
      rw [if_pos (beq_self_eq_true (Char.ofNat 37))]
      rw [← pct_cons, percentByte_encode c.toNat (by omega) t]
      rw [option_bind_some]
      dsimp only
      rw [if_pos h1, Char.ofNat_toNat]
    · rw [if_neg h1]
      by_cases h2 : c.toNat < 2048
      · rw [if_pos h2]
        have e0 : List.flatten ([192 + c.toNat / 64, 128 + c.toNat % 64].map percentEncodeByte)
            ++ t = percentEncodeByte (192 + c.toNat / 64) ++
              (percentEncodeByte (128 + c.toNat % 64) ++ t) := by simp
        rw [e0, pct_cons, decodeScalar]
        rw [if_pos (beq_self_eq_true (Char.ofNat 37))]
        rw [← pct_cons, percentByte_encode (192 + c.toNat / 64) (by omega)]
        rw [option_bind_some]
        dsimp only
        rw [if_neg (show ¬ (192 + c.toNat / 64 < 128) from by omega)]
        rw [if_pos (show ((192 ≤ 192 + c.toNat / 64 : Bool) &&
          (192 + c.toNat / 64 < 224 : Bool)) = true from by
          simp only [Bool.and_eq_true, decide_eq_true_eq]; omega)]
        rw [contByte_encode (c.toNat % 64) (by omega) t]
        rw [option_bind_some]
        dsimp only
        rw [show (192 + c.toNat / 64 - 192) * 64 + c.toNat % 64 = c.toNat from by omega,
          Char.ofNat_toNat]
      · rw [if_neg h2]
        by_cases h3 : c.toNat < 65536
        · rw [if_pos h3]
          have e0 : List.flatten ([224 + c.toNat / 4096, 128 + c.toNat / 64 % 64,
              128 + c.toNat % 64].map percentEncodeByte) ++ t =
              percentEncodeByte (224 + c.toNat / 4096) ++
                (percentEncodeByte (128 + c.toNat / 64 % 64) ++
                  (percentEncodeByte (128 + c.toNat % 64) ++ t)) := by simp
          rw [e0, pct_cons, decodeScalar]
          rw [if_pos (beq_self_eq_true (Char.ofNat 37))]
          rw [← pct_cons, percentByte_encode (224 + c.toNat / 4096) (by omega)]
          rw [option_bind_some]
          dsimp only
          rw [if_neg (show ¬ (224 + c.toNat / 4096 < 128) from by omega)]
          rw [if_neg (show ¬ ((192 ≤ 224 + c.toNat / 4096 : Bool) &&
            (224 + c.toNat / 4096 < 224 : Bool)) = true from by
            simp only [Bool.and_eq_true, decide_eq_true_eq]; omega)]
          rw [if_pos (show ((224 ≤ 224 + c.toNat / 4096 : Bool) &&
            (224 + c.toNat / 4096 < 240 : Bool)) = true from by
            simp only [Bool.and_eq_true, decide_eq_true_eq]; omega)]
          rw [contByte_encode (c.toNat / 64 % 64) (by omega)]
          rw [option_bind_some]
          dsimp only
          rw [contByte_encode (c.toNat % 64) (by omega) t]
          rw [option_bind_some]
          dsimp only
          rw [show (224 + c.toNat / 4096 - 224) * 4096 + c.toNat / 64 % 64 * 64 + c.toNat % 64 =
            c.toNat from by omega, Char.ofNat_toNat]
        · rw [if_neg h3]
          have e0 : List.flatten ([240 + c.toNat / 262144, 128 + c.toNat / 4096 % 64,
              128 + c.toNat / 64 % 64, 128 + c.toNat % 64].map percentEncodeByte) ++ t =
              percentEncodeByte (240 + c.toNat / 262144) ++
                (percentEncodeByte (128 + c.toNat / 4096 % 64) ++
                  (percentEncodeByte (128 + c.toNat / 64 % 64) ++
                    (percentEncodeByte (128 + c.toNat % 64) ++ t))) := by simp
          rw [e0, pct_cons, decodeScalar]
          rw [if_pos (beq_self_eq_true (Char.ofNat 37))]
          rw [← pct_cons, percentByte_encode (240 + c.toNat / 262144) (by omega)]
          rw [option_bind_some]
          dsimp only
          rw [if_neg (show ¬ (240 + c.toNat / 262144 < 128) from by omega)]
          rw [if_neg (show ¬ ((192 ≤ 240 + c.toNat / 262144 : Bool) &&
            (240 + c.toNat / 262144 < 224 : Bool)) = true from by
            simp only [Bool.and_eq_true, decide_eq_true_eq]; omega)]
          rw [if_neg (show ¬ ((224 ≤ 240 + c.toNat / 262144 : Bool) &&
            (240 + c.toNat / 262144 < 240 : Bool)) = true from by
            simp only [Bool.and_eq_true, decide_eq_true_eq]; omega)]
          rw [if_pos (show ((240 ≤ 240 + c.toNat / 262144 : Bool) &&
            (240 + c.toNat / 262144 < 256 : Bool)) = true from by
            simp only [Bool.and_eq_true, decide_eq_true_eq]; omega)]
          rw [contByte_encode (c.toNat / 4096 % 64) (by omega)]
          rw [option_bind_some]
          dsimp only
          rw [contByte_encode (c.toNat / 64 % 64) (by omega)]
          rw [option_bind_some]
          dsimp only
          rw [contByte_encode (c.toNat % 64) (by omega) t]
          rw [option_bind_some]
          dsimp only
          rw [show (240 + c.toNat / 262144 - 240) * 262144 + c.toNat / 4096 % 64 * 4096 +
            c.toNat / 64 % 64 * 64 + c.toNat % 64 = c.toNat from by omega, Char.ofNat_toNat]

theorem encodeURIComponentChar_ne_nil (c : Char) : encodeURIComponentChar c ≠ [] := by
  unfold encodeURIComponentChar
  split
  · simp
  · simp only [utf8Bytes]
    split_ifs <;> simp [percentEncodeByte]

theorem decodeChars_cons_shape (l : List Char) (h : l ≠ []) :
    decodeChars l =
      match decodeScalar l with
      | none => none
      | some (c, r) =>
        match decodeChars r with
        | none => none
        | some tail => some (c :: tail) := by
  cases l with
  | nil => exact absurd rfl h
  | cons a rest =>
    rw [decodeChars]
    cases hds2 : decodeScalar (a :: rest) with
    | none => rfl
    | some p =>
      obtain ⟨c, r⟩ := p
      rfl

theorem decodeChars_encode (cs : List Char) :
    decodeChars (List.flatten (cs.map encodeURIComponentChar)) = some cs := by
  induction cs with
  | nil => simp [decodeChars]
  | cons c cs ih =>
    have hne : encodeURIComponentChar c ++ List.flatten (cs.map encodeURIComponentChar) ≠ [] := by
      intro hcontra
      exact encodeURIComponentChar_ne_nil c (List.append_eq_nil.1 hcontra).1
    rw [List.map_cons, List.flatten_cons, decodeChars_cons_shape _ hne,
      decodeScalar_encodeChar c _]
    dsimp only
    rw [ih]

/-- The percent-decoder inverts `encodeURIComponent` on every string. -/
theorem decodeURIComponent_encodeURIComponent (s : String) :
    decodeURIComponent (encodeURIComponent s) = some s := by
  unfold decodeURIComponent encodeURIComponent
  rw [show (String.mk (List.flatten (s.data.map encodeURIComponentChar))).data =
    List.flatten (s.data.map encodeURIComponentChar) from rfl]
  rw [decodeChars_encode]
  cases s
  rfl

theorem utf8Bytes_lt_256 (c : Char) : ∀ b ∈ utf8Bytes c, b < 256 := by
  intro b hb
  have hc := char_toNat_lt c
  simp only [utf8Bytes] at hb
  split_ifs at hb with h1 h2 h3
  · rw [List.mem_singleton] at hb
    omega
  · rw [List.mem_cons, List.mem_singleton] at hb
    rcases hb with rfl | rfl <;> omega
  · rw [List.mem_cons, List.mem_cons, List.mem_singleton] at hb
    rcases hb with rfl | rfl | rfl <;> omega
  · rw [List.mem_cons, List.mem_cons, List.mem_cons, List.mem_singleton] at hb
    rcases hb with rfl | rfl | rfl | rfl <;> omega

theorem encodeURIComponent_not_mem (s : String) (c0 : Char)
    (h0 : isUnreservedInURIComponent c0 = false) (hpct : c0 ≠ Char.ofNat 37)
    (hhex : ∀ n < 16, hexDigitUpper n ≠ c0) :
    c0 ∉ (encodeURIComponent s).data := by
  intro hmem
  rw [show (encodeURIComponent s).data = List.flatten (s.data.map encodeURIComponentChar)
    from rfl] at hmem
  rw [List.mem_flatten] at hmem
  obtain ⟨chunk, hchunk, hc0⟩ := hmem
  rw [List.mem_map] at hchunk
  obtain ⟨c, _, hcc⟩ := hchunk
  subst hcc
  unfold encodeURIComponentChar at hc0
  split at hc0
  · rw [List.mem_singleton] at hc0
    subst hc0
    simp_all
  · rw [List.mem_flatten] at hc0
    obtain ⟨piece, hpiece, hc0p⟩ := hc0
    rw [List.mem_map] at hpiece
    obtain ⟨b, hb, hbp⟩ := hpiece
    subst hbp
    have hblt := utf8Bytes_lt_256 c b hb
    unfold percentEncodeByte at hc0p
    rw [List.mem_cons, List.mem_cons, List.mem_singleton] at hc0p
    rcases hc0p with hc | hc | hc
    · exact hpct hc
    · exact hhex (b / 16) (by omega) hc.symm
    · exact hhex (b % 16) (by omega) hc.symm

/-- C7: constructing against base `http://x/` gives the effective base
`http://x/api/v1/` (the API-version segment appended exactly once, at
construction); `AddUser "alice"` under the identity stringifier issues
exactly one POST to `http://x/api/v1/users/alice` and completes without
error on a 201; and an identifier containing URL-reserved characters
appears in the path as a single percent-encoded segment (no `/`, `?` or
`#` in its encoding) from which the original string is recovered by
decoding. -/
theorem C7_construction_and_encoding :
    (InitializeBaseUrl "http://x/" = .ok "http://x/api/v1/") ∧
    (∀ cfg : AxiosRequestConfig, ∃ client : ClientState,
      SetBaseConstructorParameters "http://x/" cfg = .ok client ∧
      client.baseUrl = "http://x/api/v1/" ∧
      AddUserTransportCalls client (fun s : String => s) "alice" =
        [⟨.Post, "http://x/api/v1/users/alice", client.requestConfig⟩] ∧
      (∀ d, AddUser client (fun s : String => s) "alice" (.status 201 d) = .ok ())) ∧
    (∀ (TUser : Type) (client : ClientState) (toStr : TUser → String) (user : TUser),
      AddUserUrl client toStr user =
        client.baseUrl ++ "users/" ++ encodeURIComponent (toStr user)) ∧
    (∀ s : String, (∃ c ∈ s.data, isUnreservedInURIComponent c = false) →
      Char.ofNat 47 ∉ (encodeURIComponent s).data ∧
      Char.ofNat 63 ∉ (encodeURIComponent s).data ∧
      Char.ofNat 35 ∉ (encodeURIComponent s).data ∧
      decodeURIComponent (encodeURIComponent s) = some s) := by
  have hinit : InitializeBaseUrl "http://x/" = .ok "http://x/api/v1/" := by
    have hp : parsesAsUrl ("http://x/" ++ "api/v1/") = true := by decide
    simp only [InitializeBaseUrl, hp, if_true]
    exact congrArg Except.ok (by decide)
  refine ⟨hinit, ?_, ?_, ?_⟩
  · intro cfg
    refine ⟨⟨"http://x/api/v1/", SetBaseConstructorParametersConfig cfg⟩, ?_, rfl, ?_, ?_⟩
    · unfold SetBaseConstructorParameters
      rw [hinit, except_bind_ok]
    · have hurl : ("http://x/api/v1/" : String) ++ ("users/" ++ encodeURIComponent "alice") =
          "http://x/api/v1/users/alice" := by decide
      simp only [AddUserTransportCalls, postTransportCall, AddUserUrl, AppendPathToBaseUrl, hurl]
    · intro d
      rfl
  · intro TUser client toStr user
    simp [AddUserUrl, AppendPathToBaseUrl, String.append_assoc]
  · intro s hres
    refine ⟨?_, ?_, ?_, decodeURIComponent_encodeURIComponent s⟩
    · exact encodeURIComponent_not_mem s (Char.ofNat 47) (by decide) (by decide) (by decide)
    · exact encodeURIComponent_not_mem s (Char.ofNat 63) (by decide) (by decide) (by decide)
    · exact encodeURIComponent_not_mem s (Char.ofNat 35) (by decide) (by decide) (by decide)

/-- C7 witness: the reserved-character clause at the identifier `a b/c` and
the construction/AddUser clause at a headerless configuration. -/
theorem C7_construction_and_encoding_witness :
    (Char.ofNat 47 ∉ (encodeURIComponent "a b/c").data ∧
      Char.ofNat 63 ∉ (encodeURIComponent "a b/c").data ∧
      Char.ofNat 35 ∉ (encodeURIComponent "a b/c").data ∧
      decodeURIComponent (encodeURIComponent "a b/c") = some "a b/c") ∧
    (∃ client : ClientState, SetBaseConstructorParameters "http://x/" ⟨none⟩ = .ok client ∧
      client.baseUrl = "http://x/api/v1/" ∧
      AddUserTransportCalls client (fun s : String => s) "alice" =
        [⟨.Post, "http://x/api/v1/users/alice", client.requestConfig⟩] ∧
      (∀ d, AddUser client (fun s : String => s) "alice" (.status 201 d) = .ok ())) :=
  ⟨C7_construction_and_encoding.2.2.2 "a b/c" (by decide),
    C7_construction_and_encoding.2.1 ⟨none⟩⟩

theorem any_eq_find_isSome {α : Type} (p : α → Bool) (l : List α) :
    l.any p = (l.find? p).isSome := by
  induction l with
  | nil => rfl
  | cons x xs ih =>
    by_cases hx : p x
    · simp [List.any_cons, List.find?_cons, hx]
    · simp [List.any_cons, List.find?_cons, hx, ih]

theorem getProp_obj_ok (gs : List (String × JsValue)) (k : String) :
    getProp (.obj gs) k = .ok (ownProp (.obj gs) k) := rfl

theorem hasOwnProperty_obj (gs : List (String × JsValue)) (k : String) :
    hasOwnProperty (.obj gs) k = .ok (gs.any (fun p => p.1 == k)) := rfl

theorem getProp_nullish {v : JsValue} (h : isNullish v = true) (k : String) :
    getProp v k = .error () := by
  cases v <;> first | rfl | simp [isNullish] at h

theorem getProp_nonNullish {v : JsValue} (h : isNullish v = false) (k : String) :
    getProp v k = .ok (ownProp v k) := by
  cases v <;> first | rfl | simp [isNullish] at h

theorem getIndex_nonNullish {v : JsValue} (h : isNullish v = false) (i : Nat) :
    getIndex v i = .ok (ownIndex v i) := by
  cases v <;> first | rfl | simp [isNullish] at h

theorem buildAttrsIdx_eq {a : JsValue} (ha : isNullish a = false) (is : List Nat) :
    buildAttrsIdx a is =
      if is.any (fun i => isNullish (ownIndex a i)) then .error ()
      else .ok (is.map
        (fun i => ⟨ownProp (ownIndex a i) "name", ownProp (ownIndex a i) "value"⟩)) := by
  induction is with
  | nil => rfl
  | cons i is ih =>
    rw [buildAttrsIdx, getIndex_nonNullish ha, except_bind_ok]
    by_cases hi : isNullish (ownIndex a i) = true
    · rw [getProp_nullish hi, except_bind_error]
      simp [List.any_cons, hi]
    · rw [Bool.not_eq_true] at hi
      rw [getProp_nonNullish hi, except_bind_ok, getProp_nonNullish hi, except_bind_ok, ih]
      by_cases hrest : is.any (fun i => isNullish (ownIndex a i)) = true
      · rw [if_pos hrest, except_bind_error]
        simp [List.any_cons, hrest]
      · rw [if_neg hrest, except_bind_ok]
        rw [Bool.not_eq_true] at hrest
        simp [List.any_cons, hi, hrest]

theorem buildAttrs_eq (a : JsValue) :
    buildAttrs a = if specAttrsThrow a then .error () else .ok (specAttrPairs a) := by
  by_cases ha : isNullish a = true
  · unfold buildAttrs
    rw [getProp_nullish ha, except_bind_error]
    unfold specAttrsThrow
    rw [ha, Bool.true_or, if_pos rfl]
  · rw [Bool.not_eq_true] at ha
    unfold buildAttrs
    rw [getProp_nonNullish ha, except_bind_ok, buildAttrsIdx_eq ha]
    unfold specAttrsThrow specAttrPairs specAttrIndices
    rw [ha, Bool.false_or]

/-- C5 counterexample: the claim says decoding yields `null` in every case
that is not a success, but a body whose `error` property is the value
`null` makes the decoder throw a `TypeError` (`typeof null` is
`"object"`, and `null.hasOwnProperty` then throws) instead of returning
`null`. -/
theorem C5_decode_counterexample :
    DeserializeResponseDataToHttpErrorResponse (.obj [("error", JsValue.null)]) = .error () ∧
    DeserializeResponseDataToHttpErrorResponse (.obj [("error", JsValue.null)]) ≠ .ok none := by
  refine ⟨rfl, ?_⟩
  intro h
  rw [show DeserializeResponseDataToHttpErrorResponse (.obj [("error", JsValue.null)]) =
    .error () from rfl] at h
  cases h

/-- C5 (amended): the decoder equals its specification `decodeSpecOutcome`
on every body: `null` for an absent body; a record exactly when the body
owns an `error` property that is a non-null object owning `code` and
`message` and whose optional `attributes` value lets the element loop
complete (every index below the ToNumber conversion of the value's
`length` reads a non-nullish element), the record carrying the claimed
fields with one `name`/`value` pair per visited index — so an array
contributes its elements' pairs, an array-like plain object its present
elements' pairs, and a value without a numeric-convertible `length`
contributes none; a thrown `TypeError` when `error` is the value `null`,
when `attributes` is nullish, or when a visited element is nullish (as in
an array-like object whose `length` exceeds its present elements); `null`
in every remaining case. -/
theorem C5_decode_characterization (d : JsValue) :
    DeserializeResponseDataToHttpErrorResponse d = decodeSpecOutcome d := by
  cases d with
  | undefined => rfl
  | null => rfl
  | bool b => rfl
  | num n => rfl
  | str s => rfl
  | arr xs => rfl
  | obj fs =>
    have herrval : errorValueOf (.obj fs) =
        (fs.find? (fun p => p.1 == "error")).map (fun p => p.2) := rfl
    cases hfind : fs.find? (fun p => p.1 == "error") with
    | none =>
      have hany : fs.any (fun p => p.1 == "error") = false := by
        rw [any_eq_find_isSome, hfind]
        rfl
      simp only [DeserializeResponseDataToHttpErrorResponse, decodeSpecOutcome]
      rw [herrval, hfind]
      rw [hasOwnProperty_obj, except_bind_ok, getProp_obj_ok, except_bind_ok, hany]
      simp
    | some pe =>
      obtain ⟨k0, e⟩ := pe
      have hany : fs.any (fun p => p.1 == "error") = true := by
        rw [any_eq_find_isSome, hfind]
        rfl
      have hown : ownProp (.obj fs) "error" = e := by
        have h1 : ownProp (.obj fs) "error" = (match fs.find? (fun p => p.1 == "error") with
          | some p => p.2
          | none => JsValue.undefined) := rfl
        rw [h1, hfind]
      simp only [DeserializeResponseDataToHttpErrorResponse, decodeSpecOutcome]
      rw [herrval, hfind]
      rw [hasOwnProperty_obj, except_bind_ok, getProp_obj_ok, except_bind_ok, hany, hown]
      rw [Bool.true_and]
      cases e with
      | undefined => rfl
      | null => rfl
      | bool b => rfl
      | num n => rfl
      | str s => rfl
      | arr ys =>
        rw [show (jsTypeof (.arr ys) == "object") = true from rfl, if_pos rfl]
        rw [show hasOwnProperty (.arr ys) "code" = .ok false from rfl, except_bind_ok]
        rw [show hasOwnProperty (.arr ys) "message" = .ok false from rfl, except_bind_ok]
        rfl
      | obj gs =>
        rw [show (jsTypeof (.obj gs) == "object") = true from rfl, if_pos rfl]
        rw [hasOwnProperty_obj, except_bind_ok, hasOwnProperty_obj, except_bind_ok]
        by_cases hc : gs.any (fun p => p.1 == "code") = true <;>
          by_cases hm : gs.any (fun p => p.1 == "message") = true <;>
          by_cases ht : gs.any (fun p => p.1 == "target") = true <;>
          by_cases hA : gs.any (fun p => p.1 == "attributes") = true <;>
          by_cases hI : gs.any (fun p => p.1 == "innerError") = true <;>
          by_cases hth : specAttrsThrow (ownProp (JsValue.obj gs) "attributes") = true <;>
          simp [hc, hm, ht, hA, hI, hth, getProp_obj_ok, hasOwnProperty_obj, buildAttrs_eq,
            except_bind_ok, except_bind_error, pure_bind]

end ApplicationAccess
